import Mathlib

/-!
Verification development for the Tecan Fluent simulator repository.

The execution core lives in `worklist_tests/tecan_simulator_backend.py`
(the `TecanFluentSimulatorBackend` state-tracking backend together with the
`SimulatedRuntime` it dispatches to) and `worklist_tests/tecan_simulator.py`
(the `TecanSimulator` worklist loader and command executor).  Both are
embedded below as pure state-passing functions:

* Python `dict`s become association lists with first-match lookup
  (`lookupD`) and in-place overwrite (`insertA`);
* Python `float` volumes and coordinates become `ℚ` (the code only adds,
  subtracts and compares them);
* a raised exception becomes a `some`-error second component; the state
  component returned alongside it is the object state at the moment the
  exception propagates, exactly as the Python object retains every
  mutation made before the `raise`;
* `await asyncio.sleep` and `logger` calls have no effect on any state
  read by the code and are dropped;
* `SimulatedRuntime.execute_command` appends the command to the runtime's
  `commands` list (the `dispatched` field below) after checking
  `initialized`.
-/

set_option autoImplicit false

section AList

variable {α β : Type} [DecidableEq α]

/-- First-match lookup with default: the model of Python `dict.get(k, d)`. -/
def lookupD (m : List (α × β)) (k : α) (d : β) : β :=
  match m with
  | [] => d
  | (k', v) :: rest => if k = k' then v else lookupD rest k d

/-- In-place overwrite (append when absent): the model of `dict[k] = v`. -/
def insertA (m : List (α × β)) (k : α) (v : β) : List (α × β) :=
  match m with
  | [] => [(k, v)]
  | (k', v') :: rest => if k = k' then (k, v) :: rest else (k', v') :: insertA rest k v

end AList

/-- A pylabrobot resource as the backend consumes it: an opaque `name` and
an absolute location (`get_absolute_location()` in the code). -/
structure Resource where
  name : String
  location : ℚ × ℚ × ℚ
deriving DecidableEq, Repr

/-- Modelled from the spec: pylabrobot's `Resource.get_name()` accessor
(the `Resource` class itself is not under `src/`), which returns the
resource's own name. -/
def Resource.get_name (r : Resource) : String := r.name

/-- The `well_key = f"{op.resource.name}_{op.resource.get_name()}"`
computation shared by `aspirate` and `dispense`. -/
def wellKey (r : Resource) : String := r.name ++ "_" ++ r.get_name

/-- A tip `Pickup` operation (only the fields the backend reads). -/
structure Pickup where
  resource : Resource
deriving DecidableEq, Repr

/-- A tip `Drop` operation. -/
structure Drop where
  resource : Resource
deriving DecidableEq, Repr

/-- A `SingleChannelAspiration` operation (fields read by the backend). -/
structure SingleChannelAspiration where
  resource : Resource
  volume : ℚ
  liquid_class : Option String
deriving DecidableEq, Repr

/-- A `SingleChannelDispense` operation. -/
structure SingleChannelDispense where
  resource : Resource
  volume : ℚ
  liquid_class : Option String
deriving DecidableEq, Repr

/-- A `ResourcePickup` operation. -/
structure ResourcePickup where
  resource : Resource
deriving DecidableEq, Repr

/-- A `ResourceMove` operation. -/
structure ResourceMove where
  resource : Resource
  target_location : ℚ × ℚ × ℚ
deriving DecidableEq, Repr

/-- A `ResourceDrop` operation. -/
structure ResourceDrop where
  resource : Resource
deriving DecidableEq, Repr

/-- One record appended to `SimulatedRuntime.commands` by
`execute_command(command, params)`: the command string together with the
parameters the backend passes. -/
inductive RuntimeCommand where
  | pickUpTip (channel : Nat) (position : ℚ × ℚ × ℚ)
  | dropTip (channel : Nat) (position : ℚ × ℚ × ℚ)
  | aspirateCmd (channel : Nat) (volume : ℚ) (position : ℚ × ℚ × ℚ)
      (liquid_class : Option String)
  | dispenseCmd (channel : Nat) (volume : ℚ) (position : ℚ × ℚ × ℚ)
      (liquid_class : Option String)
  | pickUpResourceCmd (resource : String)
  | moveResourceCmd (resource : String) (target : ℚ × ℚ × ℚ)
  | dropResourceCmd (resource : String)
deriving DecidableEq, Repr

/-- The `RuntimeError`s the simulator code can raise. -/
inductive SimError where
  | simulatorNotSetUp
  | runtimeNotInitialized
  | noTipOnChannel (channel : Nat)
  | insufficientVolume (key : String)
  | alreadyHoldingResource
  | noResourcePickedUp
  | notConnected
deriving DecidableEq, Repr

/-- The mutable state of a `TecanFluentSimulatorBackend` instance together
with the `SimulatedRuntime` it owns: `setup_finished`, the runtime's
`initialized` flag, `_tip_states`, `_liquid_states`,
`_picked_up_resource`, and the runtime's `commands` list (`dispatched`). -/
structure BackendState where
  setupFinished : Bool
  runtimeInitialized : Bool
  tipStates : List (Nat × Bool)
  liquidStates : List (String × ℚ)
  pickedUpResource : Option Resource
  dispatched : List RuntimeCommand
deriving DecidableEq, Repr

namespace TecanFluentSimulatorBackend

/-- `SimulatedRuntime.execute_command`: raises unless `initialized`,
otherwise appends the command record. -/
def execute_command (s : BackendState) (c : RuntimeCommand) :
    BackendState × Option SimError :=
  if s.runtimeInitialized then ({ s with dispatched := s.dispatched ++ [c] }, none)
  else (s, some .runtimeNotInitialized)

/-- The `for op, channel in zip(ops, use_channels)` loop of
`pick_up_tips`: dispatch `PickUpTip`, then set `_tip_states[channel] = True`. -/
def pick_up_tips_loop (s : BackendState) :
    List (Pickup × Nat) → BackendState × Option SimError
  | [] => (s, none)
  | (op, channel) :: rest =>
    match execute_command s (.pickUpTip channel op.resource.location) with
    | (s', some e) => (s', some e)
    | (s', none) =>
      pick_up_tips_loop { s' with tipStates := insertA s'.tipStates channel true } rest

/-- `TecanFluentSimulatorBackend.pick_up_tips`. -/
def pick_up_tips (s : BackendState) (ops : List Pickup) (use_channels : List Nat) :
    BackendState × Option SimError :=
  if s.setupFinished then pick_up_tips_loop s (ops.zip use_channels)
  else (s, some .simulatorNotSetUp)

/-- The loop of `drop_tips`: dispatch `DropTip`, then set
`_tip_states[channel] = False`. -/
def drop_tips_loop (s : BackendState) :
    List (Drop × Nat) → BackendState × Option SimError
  | [] => (s, none)
  | (op, channel) :: rest =>
    match execute_command s (.dropTip channel op.resource.location) with
    | (s', some e) => (s', some e)
    | (s', none) =>
      drop_tips_loop { s' with tipStates := insertA s'.tipStates channel false } rest

/-- `TecanFluentSimulatorBackend.drop_tips`. -/
def drop_tips (s : BackendState) (ops : List Drop) (use_channels : List Nat) :
    BackendState × Option SimError :=
  if s.setupFinished then drop_tips_loop s (ops.zip use_channels)
  else (s, some .simulatorNotSetUp)

/-- The loop of `aspirate`, in source order: raise `No tip on channel` if
`not self._tip_states.get(channel, False)`; dispatch `Aspirate` to the
runtime; compute `well_key`; raise `Not enough liquid` if the current
volume is below `op.volume`; otherwise store `current - op.volume`. -/
def aspirate_loop (s : BackendState) :
    List (SingleChannelAspiration × Nat) → BackendState × Option SimError
  | [] => (s, none)
  | (op, channel) :: rest =>
    if lookupD s.tipStates channel false = false then
      (s, some (.noTipOnChannel channel))
    else
      match execute_command s
          (.aspirateCmd channel op.volume op.resource.location op.liquid_class) with
      | (s', some e) => (s', some e)
      | (s', none) =>
        let key := wellKey op.resource
        let cur := lookupD s'.liquidStates key 0
        if cur < op.volume then (s', some (.insufficientVolume key))
        else
          aspirate_loop
            { s' with liquidStates := insertA s'.liquidStates key (cur - op.volume) } rest

/-- `TecanFluentSimulatorBackend.aspirate`. -/
def aspirate (s : BackendState) (ops : List SingleChannelAspiration)
    (use_channels : List Nat) : BackendState × Option SimError :=
  if s.setupFinished then aspirate_loop s (ops.zip use_channels)
  else (s, some .simulatorNotSetUp)

/-- The loop of `dispense`: tip check, dispatch, then store
`current + op.volume` (no upper-bound or sign check). -/
def dispense_loop (s : BackendState) :
    List (SingleChannelDispense × Nat) → BackendState × Option SimError
  | [] => (s, none)
  | (op, channel) :: rest =>
    if lookupD s.tipStates channel false = false then
      (s, some (.noTipOnChannel channel))
    else
      match execute_command s
          (.dispenseCmd channel op.volume op.resource.location op.liquid_class) with
      | (s', some e) => (s', some e)
      | (s', none) =>
        let key := wellKey op.resource
        let cur := lookupD s'.liquidStates key 0
        dispense_loop
          { s' with liquidStates := insertA s'.liquidStates key (cur + op.volume) } rest

/-- `TecanFluentSimulatorBackend.dispense`. -/
def dispense (s : BackendState) (ops : List SingleChannelDispense)
    (use_channels : List Nat) : BackendState × Option SimError :=
  if s.setupFinished then dispense_loop s (ops.zip use_channels)
  else (s, some .simulatorNotSetUp)

/-- `TecanFluentSimulatorBackend.pick_up_resource`: raises when not set
up, raises `Already holding a resource` when `_picked_up_resource` is not
`None`, otherwise dispatches and then stores the resource. -/
def pick_up_resource (s : BackendState) (pickup : ResourcePickup) :
    BackendState × Option SimError :=
  if s.setupFinished then
    match s.pickedUpResource with
    | some _ => (s, some .alreadyHoldingResource)
    | none =>
      match execute_command s (.pickUpResourceCmd pickup.resource.name) with
      | (s', some e) => (s', some e)
      | (s', none) => ({ s' with pickedUpResource := some pickup.resource }, none)
  else (s, some .simulatorNotSetUp)

/-- `TecanFluentSimulatorBackend.move_picked_up_resource`: raises when
`_picked_up_resource` is `None`; the held resource is never compared with
`move.resource`; no state besides the dispatch log changes. -/
def move_picked_up_resource (s : BackendState) (move : ResourceMove) :
    BackendState × Option SimError :=
  if s.setupFinished then
    match s.pickedUpResource with
    | none => (s, some .noResourcePickedUp)
    | some _ =>
      execute_command s (.moveResourceCmd move.resource.name move.target_location)
  else (s, some .simulatorNotSetUp)

/-- `TecanFluentSimulatorBackend.drop_resource`: raises when
`_picked_up_resource` is `None`; the held resource is never compared with
`drop.resource`; on success clears `_picked_up_resource`. -/
def drop_resource (s : BackendState) (drop : ResourceDrop) :
    BackendState × Option SimError :=
  if s.setupFinished then
    match s.pickedUpResource with
    | none => (s, some .noResourcePickedUp)
    | some _ =>
      match execute_command s (.dropResourceCmd drop.resource.name) with
      | (s', some e) => (s', some e)
      | (s', none) => ({ s' with pickedUpResource := none }, none)
  else (s, some .simulatorNotSetUp)

end TecanFluentSimulatorBackend

/-- One call into the backend's public batch API, as issued by a caller
(either a `LiquidHandler` or a test script). -/
inductive BackendCall where
  | pickUpTipsCall (ops : List Pickup) (use_channels : List Nat)
  | dropTipsCall (ops : List Drop) (use_channels : List Nat)
  | aspirateCall (ops : List SingleChannelAspiration) (use_channels : List Nat)
  | dispenseCall (ops : List SingleChannelDispense) (use_channels : List Nat)
  | pickUpResourceCall (pickup : ResourcePickup)
  | moveResourceCall (move : ResourceMove)
  | dropResourceCall (drop : ResourceDrop)
deriving DecidableEq, Repr

namespace TecanFluentSimulatorBackend

/-- Dispatch one `BackendCall` to the corresponding backend method. -/
def runCall (s : BackendState) : BackendCall → BackendState × Option SimError
  | .pickUpTipsCall ops chs => pick_up_tips s ops chs
  | .dropTipsCall ops chs => drop_tips s ops chs
  | .aspirateCall ops chs => aspirate s ops chs
  | .dispenseCall ops chs => dispense s ops chs
  | .pickUpResourceCall p => pick_up_resource s p
  | .moveResourceCall m => move_picked_up_resource s m
  | .dropResourceCall d => drop_resource s d

/-- A strictly sequential run of backend calls, stopping at the first
raised error (the exception propagates to the caller, leaving the backend
object in the state it had at the moment of the raise). -/
def runCalls (s : BackendState) : List BackendCall → BackendState × Option SimError
  | [] => (s, none)
  | c :: rest =>
    match runCall s c with
    | (s', some e) => (s', some e)
    | (s', none) => runCalls s' rest

end TecanFluentSimulatorBackend

/-!  The `TecanSimulator` of `worklist_tests/tecan_simulator.py`: a
worklist loader (`load_worklist`) and a command executor
(`execute_commands`). -/

/-- A parsed worklist command dictionary, as built by `load_worklist`. -/
inductive WCommand where
  | aspirateW (plate well : String) (volume : ℚ)
  | dispenseW (plate well : String) (volume : ℚ)
  | washW
  | breakW
  | mixW (plate well : String) (cycles : Int) (volume : ℚ)
deriving DecidableEq, Repr

/-- The mutable state of a `TecanSimulator` instance: `connected`,
`liquid_states` and `tip_states` (labware metadata and `current_method`
are never read by the executor and are omitted). -/
structure SimState where
  connected : Bool
  liquidStates : List (String × ℚ)
  tipStates : List (Nat × Bool)
deriving DecidableEq, Repr

/-- Numeric value of a digit string (most significant first). -/
def digitsVal (cs : List Char) : Nat :=
  cs.foldl (fun a c => a * 10 + (c.toNat - 48)) 0

/-- Modelled from the spec: Python's `str.split(sep)` for a one-character
separator (the builtin is not repository code): split at every occurrence
of `sep`, keeping empty fields, with `[""]` for the empty string. -/
def pySplitChar (sep : Char) : List Char → List (List Char)
  | [] => [[]]
  | c :: rest =>
    if c = sep then [] :: pySplitChar sep rest
    else
      match pySplitChar sep rest with
      | [] => [[c]]
      | g :: gs => (c :: g) :: gs

/-- `str.split(sep)` on strings. -/
def pySplit (s : String) (sep : Char) : List String :=
  (pySplitChar sep s.toList).map (fun cs => String.mk cs)

/-- Modelled from the spec: Python's `str.strip()` — remove leading and
trailing whitespace. -/
def pyStrip (s : String) : String :=
  String.mk
    (((s.toList.dropWhile Char.isWhitespace).reverse.dropWhile
      Char.isWhitespace).reverse)

/-- Modelled from the spec: Python's builtin `float()` (not repository
code) applied to a worklist numeric field, restricted to the unsigned
decimal literals the grammar's numeric fields carry (digits with an
optional fractional part, surrounding whitespace ignored); anything else
raises, which parsing surfaces as `none`. -/
def pyFloat (s : String) : Option ℚ :=
  match pySplit (pyStrip s) (Char.ofNat 46) with
  | [w] =>
    if w ≠ "" ∧ w.toList.all Char.isDigit then some (digitsVal w.toList) else none
  | [w, f] =>
    if (w ++ f) ≠ "" ∧ (w ++ f).toList.all Char.isDigit then
      some ((digitsVal w.toList : ℚ) + (digitsVal f.toList : ℚ) / (10 : ℚ) ^ f.length)
    else none
  | _ => none

/-- Modelled from the spec: Python's builtin `int()` on the `cycles`
field, restricted to unsigned decimal literals. -/
def pyInt (s : String) : Option Int :=
  let t := pyStrip s
  if t ≠ "" ∧ t.toList.all Char.isDigit then some (digitsVal t.toList) else none

namespace TecanSimulator

/-- One iteration of the `load_worklist` line loop.  `none` is a raised
exception (missing field or unparsable number); `some none` is a line the
loop passes over without appending a command — a blank/whitespace line or
a line whose leading field matches no recognized command code, which the
code skips silently because no `else` branch exists; `some (some c)`
appends `c`. -/
def parseLine (line : String) : Option (Option WCommand) :=
  if line.toList.all Char.isWhitespace then some none
  else
    let parts := pySplit line (Char.ofNat 59)
    let cmd := parts.headD ""
    if cmd = "A" then do
      let plate ← parts.get? 1
      let well ← parts.get? 2
      let volStr ← parts.get? 4
      let v ← pyFloat volStr
      some (some (.aspirateW plate well v))
    else if cmd = "D" then do
      let plate ← parts.get? 1
      let well ← parts.get? 2
      let volStr ← parts.get? 4
      let v ← pyFloat volStr
      some (some (.dispenseW plate well v))
    else if cmd = "W" then some (some .washW)
    else if cmd = "B" then some (some .breakW)
    else if cmd = "M" then do
      let plate ← parts.get? 1
      let well ← parts.get? 2
      let cyclesStr ← parts.get? 3
      let volStr ← parts.get? 4
      let cycles ← pyInt cyclesStr
      let v ← pyFloat volStr
      some (some (.mixW plate well cycles v))
    else some none

/-- The `load_worklist` loop over the split lines, in order. -/
def parseLines : List String → Option (List WCommand)
  | [] => some []
  | l :: rest => do
    let c? ← parseLine l
    let cs ← parseLines rest
    match c? with
    | none => some cs
    | some c => some (c :: cs)

/-- `TecanSimulator.load_worklist` on the file's text:
`text.strip().split('\n')`, then the line loop (file-existence checking
is I/O outside the parsing semantics). -/
def load_worklist (text : String) : Option (List WCommand) :=
  parseLines (pySplit (pyStrip text) (Char.ofNat 10))

/-- One iteration of the `execute_commands` loop: every branch only logs
and sleeps; no field of the simulator state is assigned. -/
def execStep (s : SimState) (c : WCommand) : SimState :=
  match c with
  | .aspirateW _ _ _ => s
  | .dispenseW _ _ _ => s
  | .washW => s
  | .breakW => s
  | .mixW _ _ _ _ => s

/-- `TecanSimulator.execute_commands`: raises unless `connected`, then
runs the per-command loop. -/
def execute_commands (s : SimState) (cmds : List WCommand) :
    SimState × Option SimError :=
  if s.connected then (cmds.foldl execStep s, none)
  else (s, some .notConnected)

end TecanSimulator

/-!  Concrete fixtures used by the counterexamples and witnesses. -/

/-- A plate resource named `P` at the deck origin. -/
def resP : Resource := ⟨"P", (0, 0, 0)⟩

/-- A second resource named `Q` at a different location. -/
def resQ : Resource := ⟨"Q", (1, 2, 3)⟩

/-- A resource named `P` like `resP` but at a different location. -/
def resP' : Resource := ⟨"P", (7, 8, 9)⟩

/-- A ready backend: set up, runtime initialized, a tip on channel 0 only,
100 µL recorded in well `P_P`, nothing gripped, nothing dispatched yet. -/
def readyState : BackendState :=
  { setupFinished := true, runtimeInitialized := true,
    tipStates := [(0, true)], liquidStates := [("P_P", 100)],
    pickedUpResource := none, dispatched := [] }

/-- A ready backend with no tips picked up yet. -/
def freshState : BackendState :=
  { setupFinished := true, runtimeInitialized := true,
    tipStates := [], liquidStates := [("P_P", 100)],
    pickedUpResource := none, dispatched := [] }

/-- A ready backend with an empty liquid ledger and a tip on channel 0. -/
def noLiquidState : BackendState :=
  { setupFinished := true, runtimeInitialized := true,
    tipStates := [(0, true)], liquidStates := [],
    pickedUpResource := none, dispatched := [] }

/-- A ready backend already gripping `resP`. -/
def heldState : BackendState :=
  { setupFinished := true, runtimeInitialized := true,
    tipStates := [(0, true)], liquidStates := [("P_P", 100)],
    pickedUpResource := some resP, dispatched := [] }

/-- The `TecanSimulator` state of spec scenario 1: connected, with
`Source_96.A1` pre-seeded to 100 µL. -/
def simScenario : SimState :=
  { connected := true, liquidStates := [("Source_96.A1", 100)], tipStates := [] }

/-- Every recorded volume of the backend's liquid ledger is nonnegative. -/
def liquidNonneg (s : BackendState) : Prop :=
  ∀ p ∈ s.liquidStates, 0 ≤ p.2

/-- Every volume carried by a dispense call is nonnegative (other calls
impose nothing). -/
def dispenseVolsNonneg : BackendCall → Prop
  | .dispenseCall ops _ => ∀ op ∈ ops, 0 ≤ op.volume
  | _ => True

/-!  Association-list lemmas. -/

section AListLemmas

variable {α β : Type} [DecidableEq α]

theorem lookupD_insertA_self (m : List (α × β)) (k : α) (v : β) (d : β) :
    lookupD (insertA m k v) k d = v := by
  induction m with
  | nil => simp [insertA, lookupD]
  | cons p rest ih =>
    obtain ⟨k', v'⟩ := p
    by_cases h : k = k' <;> simp [insertA, lookupD, h, ih]

theorem lookupD_insertA_ne (m : List (α × β)) (k k' : α) (v : β) (d : β)
    (h : k' ≠ k) : lookupD (insertA m k v) k' d = lookupD m k' d := by
  induction m with
  | nil => simp [insertA, lookupD, h]
  | cons p rest ih =>
    obtain ⟨k₀, v₀⟩ := p
    by_cases hk : k = k₀
    · subst hk
      simp [insertA, lookupD, h]
    · by_cases hk' : k' = k₀ <;> simp [insertA, lookupD, hk, hk', ih]

theorem mem_insertA (m : List (α × β)) (k : α) (v : β) (p : α × β)
    (hp : p ∈ insertA m k v) : p = (k, v) ∨ p ∈ m := by
  induction m with
  | nil => simpa [insertA] using hp
  | cons q rest ih =>
    obtain ⟨k₀, v₀⟩ := q
    by_cases hk : k = k₀
    · simp only [insertA, if_pos hk, List.mem_cons] at hp
      rcases hp with h | h
      · exact Or.inl h
      · exact Or.inr (List.mem_cons_of_mem _ h)
    · simp only [insertA, if_neg hk, List.mem_cons] at hp
      rcases hp with h | h
      · subst h
        exact Or.inr (List.mem_cons_self _ _)
      · rcases ih h with h' | h'
        · exact Or.inl h'
        · exact Or.inr (List.mem_cons_of_mem _ h')

theorem lookupD_nonneg (m : List (α × ℚ)) (k : α)
    (h : ∀ p ∈ m, 0 ≤ p.2) : 0 ≤ lookupD m k 0 := by
  induction m with
  | nil => simp [lookupD]
  | cons p rest ih =>
    obtain ⟨k', v⟩ := p
    by_cases hk : k = k'
    · simpa [lookupD, hk] using h (k', v) (List.mem_cons_self _ _)
    · simp only [lookupD, if_neg hk]
      exact ih (fun q hq => h q (List.mem_cons_of_mem _ hq))

end AListLemmas

/-!  Behaviour lemmas about the backend loops. -/

namespace TecanFluentSimulatorBackend

theorem execute_command_eq (s : BackendState) (c : RuntimeCommand)
    (h : s.runtimeInitialized = true) :
    execute_command s c = ({ s with dispatched := s.dispatched ++ [c] }, none) := by
  simp [execute_command, h]

theorem pick_up_tips_loop_ok (l : List (Pickup × Nat)) :
    ∀ s : BackendState, s.runtimeInitialized = true →
      (pick_up_tips_loop s l).2 = none := by
  induction l with
  | nil => intro s _; rfl
  | cons p rest ih =>
    intro s h
    obtain ⟨op, ch⟩ := p
    simp only [pick_up_tips_loop, execute_command_eq _ _ h]
    exact ih _ h

theorem pick_up_tips_loop_liquid (l : List (Pickup × Nat)) :
    ∀ s : BackendState, (pick_up_tips_loop s l).1.liquidStates = s.liquidStates := by
  induction l with
  | nil => intro s; rfl
  | cons p rest ih =>
    intro s
    obtain ⟨op, ch⟩ := p
    cases h : s.runtimeInitialized with
    | false => simp [pick_up_tips_loop, execute_command, h]
    | true =>
      simp only [pick_up_tips_loop, execute_command_eq _ _ h]
      exact ih _

theorem pick_up_tips_loop_lookup_of_notmem (l : List (Pickup × Nat)) (ch : Nat) :
    ∀ s : BackendState, s.runtimeInitialized = true → ch ∉ l.map Prod.snd →
      lookupD (pick_up_tips_loop s l).1.tipStates ch false
        = lookupD s.tipStates ch false := by
  induction l with
  | nil => intro s _ _; rfl
  | cons p rest ih =>
    intro s h hch
    obtain ⟨op, c⟩ := p
    simp only [List.map_cons, List.mem_cons, not_or] at hch
    simp only [pick_up_tips_loop, execute_command_eq _ _ h]
    exact (ih { s with
        tipStates := insertA s.tipStates c true
        dispatched := s.dispatched ++ [RuntimeCommand.pickUpTip c op.resource.location] }
        h hch.2).trans (lookupD_insertA_ne _ _ _ _ _ hch.1)

theorem pick_up_tips_loop_lookup_of_mem (l : List (Pickup × Nat)) (ch : Nat) :
    ∀ s : BackendState, s.runtimeInitialized = true → ch ∈ l.map Prod.snd →
      lookupD (pick_up_tips_loop s l).1.tipStates ch false = true := by
  induction l with
  | nil => intro s _ hch; simp at hch
  | cons p rest ih =>
    intro s h hch
    obtain ⟨op, c⟩ := p
    simp only [pick_up_tips_loop, execute_command_eq _ _ h]
    by_cases hm : ch ∈ rest.map Prod.snd
    · exact ih _ h hm
    · have hc : ch = c := by
        simp only [List.map_cons, List.mem_cons] at hch
        tauto
      rw [hc] at hm ⊢
      exact (pick_up_tips_loop_lookup_of_notmem rest c
          { s with
            tipStates := insertA s.tipStates c true
            dispatched := s.dispatched ++ [RuntimeCommand.pickUpTip c op.resource.location] }
          h hm).trans (lookupD_insertA_self _ _ _ _)

theorem drop_tips_loop_ok (l : List (Drop × Nat)) :
    ∀ s : BackendState, s.runtimeInitialized = true →
      (drop_tips_loop s l).2 = none := by
  induction l with
  | nil => intro s _; rfl
  | cons p rest ih =>
    intro s h
    obtain ⟨op, ch⟩ := p
    simp only [drop_tips_loop, execute_command_eq _ _ h]
    exact ih _ h

theorem drop_tips_loop_liquid (l : List (Drop × Nat)) :
    ∀ s : BackendState, (drop_tips_loop s l).1.liquidStates = s.liquidStates := by
  induction l with
  | nil => intro s; rfl
  | cons p rest ih =>
    intro s
    obtain ⟨op, ch⟩ := p
    cases h : s.runtimeInitialized with
    | false => simp [drop_tips_loop, execute_command, h]
    | true =>
      simp only [drop_tips_loop, execute_command_eq _ _ h]
      exact ih _

theorem drop_tips_loop_lookup_of_notmem (l : List (Drop × Nat)) (ch : Nat) :
    ∀ s : BackendState, s.runtimeInitialized = true → ch ∉ l.map Prod.snd →
      lookupD (drop_tips_loop s l).1.tipStates ch false
        = lookupD s.tipStates ch false := by
  induction l with
  | nil => intro s _ _; rfl
  | cons p rest ih =>
    intro s h hch
    obtain ⟨op, c⟩ := p
    simp only [List.map_cons, List.mem_cons, not_or] at hch
    simp only [drop_tips_loop, execute_command_eq _ _ h]
    exact (ih { s with
        tipStates := insertA s.tipStates c false
        dispatched := s.dispatched ++ [RuntimeCommand.dropTip c op.resource.location] }
        h hch.2).trans (lookupD_insertA_ne _ _ _ _ _ hch.1)

theorem drop_tips_loop_lookup_of_mem (l : List (Drop × Nat)) (ch : Nat) :
    ∀ s : BackendState, s.runtimeInitialized = true → ch ∈ l.map Prod.snd →
      lookupD (drop_tips_loop s l).1.tipStates ch false = false := by
  induction l with
  | nil => intro s _ hch; simp at hch
  | cons p rest ih =>
    intro s h hch
    obtain ⟨op, c⟩ := p
    simp only [drop_tips_loop, execute_command_eq _ _ h]
    by_cases hm : ch ∈ rest.map Prod.snd
    · exact ih _ h hm
    · have hc : ch = c := by
        simp only [List.map_cons, List.mem_cons] at hch
        tauto
      rw [hc] at hm ⊢
      exact (drop_tips_loop_lookup_of_notmem rest c
          { s with
            tipStates := insertA s.tipStates c false
            dispatched := s.dispatched ++ [RuntimeCommand.dropTip c op.resource.location] }
          h hm).trans (lookupD_insertA_self _ _ _ _)

end TecanFluentSimulatorBackend

namespace TecanFluentSimulatorBackend

theorem aspirate_loop_nonneg (l : List (SingleChannelAspiration × Nat)) :
    ∀ s : BackendState, (∀ p ∈ s.liquidStates, 0 ≤ p.2) →
      ∀ p ∈ (aspirate_loop s l).1.liquidStates, 0 ≤ p.2 := by
  induction l with
  | nil => intro s h0; simpa [aspirate_loop] using h0
  | cons q rest ih =>
    intro s h0
    obtain ⟨op, ch⟩ := q
    cases htip : lookupD s.tipStates ch false with
    | false => simpa [aspirate_loop, htip] using h0
    | true =>
      cases hini : s.runtimeInitialized with
      | false => simpa [aspirate_loop, htip, execute_command, hini] using h0
      | true =>
        by_cases hvol :
            lookupD s.liquidStates (wellKey op.resource) 0 < op.volume
        · simpa [aspirate_loop, htip, execute_command, hini, hvol] using h0
        · simp only [aspirate_loop, htip, execute_command, hini, if_neg hvol,
            Bool.true_eq_false, if_false, if_true]
          apply ih
          intro p hp
          rcases mem_insertA _ _ _ _ hp with h | h
          · rw [h]
            exact sub_nonneg.mpr (not_lt.mp hvol)
          · exact h0 p h

theorem dispense_loop_nonneg (l : List (SingleChannelDispense × Nat)) :
    ∀ s : BackendState, (∀ p ∈ s.liquidStates, 0 ≤ p.2) →
      (∀ q ∈ l, 0 ≤ q.1.volume) →
      ∀ p ∈ (dispense_loop s l).1.liquidStates, 0 ≤ p.2 := by
  induction l with
  | nil => intro s h0 _; simpa [dispense_loop] using h0
  | cons q rest ih =>
    intro s h0 hvols
    obtain ⟨op, ch⟩ := q
    cases htip : lookupD s.tipStates ch false with
    | false => simpa [dispense_loop, htip] using h0
    | true =>
      cases hini : s.runtimeInitialized with
      | false => simpa [dispense_loop, htip, execute_command, hini] using h0
      | true =>
        simp only [dispense_loop, htip, execute_command, hini,
          Bool.true_eq_false, if_false, if_true]
        apply ih
        · intro p hp
          rcases mem_insertA _ _ _ _ hp with h | h
          · rw [h]
            exact add_nonneg (lookupD_nonneg _ _ h0)
              (hvols (op, ch) (List.mem_cons_self _ _))
          · exact h0 p h
        · intro q hq
          exact hvols q (List.mem_cons_of_mem _ hq)

theorem pick_up_resource_liquid (s : BackendState) (p : ResourcePickup) :
    (pick_up_resource s p).1.liquidStates = s.liquidStates := by
  cases hsf : s.setupFinished <;>
    cases hpr : s.pickedUpResource <;>
      cases hini : s.runtimeInitialized <;>
        simp [pick_up_resource, execute_command, hsf, hpr, hini]

theorem move_picked_up_resource_liquid (s : BackendState) (m : ResourceMove) :
    (move_picked_up_resource s m).1.liquidStates = s.liquidStates := by
  cases hsf : s.setupFinished <;>
    cases hpr : s.pickedUpResource <;>
      cases hini : s.runtimeInitialized <;>
        simp [move_picked_up_resource, execute_command, hsf, hpr, hini]

theorem drop_resource_liquid (s : BackendState) (d : ResourceDrop) :
    (drop_resource s d).1.liquidStates = s.liquidStates := by
  cases hsf : s.setupFinished <;>
    cases hpr : s.pickedUpResource <;>
      cases hini : s.runtimeInitialized <;>
        simp [drop_resource, execute_command, hsf, hpr, hini]

theorem runCall_nonneg (s : BackendState) (c : BackendCall)
    (h0 : liquidNonneg s) (hc : dispenseVolsNonneg c) :
    liquidNonneg (runCall s c).1 := by
  cases c with
  | pickUpTipsCall ops chs =>
    intro p hp
    cases hsf : s.setupFinished with
    | false => exact h0 p (by simpa [runCall, pick_up_tips, hsf] using hp)
    | true =>
      apply h0 p
      rw [runCall, pick_up_tips, hsf, if_pos rfl, pick_up_tips_loop_liquid] at hp
      exact hp
  | dropTipsCall ops chs =>
    intro p hp
    cases hsf : s.setupFinished with
    | false => exact h0 p (by simpa [runCall, drop_tips, hsf] using hp)
    | true =>
      apply h0 p
      rw [runCall, drop_tips, hsf, if_pos rfl, drop_tips_loop_liquid] at hp
      exact hp
  | aspirateCall ops chs =>
    cases hsf : s.setupFinished with
    | false => intro p hp; exact h0 p (by simpa [runCall, aspirate, hsf] using hp)
    | true =>
      intro p hp
      refine aspirate_loop_nonneg (ops.zip chs) s h0 p ?_
      simpa [runCall, aspirate, hsf] using hp
  | dispenseCall ops chs =>
    cases hsf : s.setupFinished with
    | false => intro p hp; exact h0 p (by simpa [runCall, dispense, hsf] using hp)
    | true =>
      intro p hp
      refine dispense_loop_nonneg (ops.zip chs) s h0 ?_ p ?_
      · intro q hq
        exact hc q.1 (List.of_mem_zip hq).1
      · simpa [runCall, dispense, hsf] using hp
  | pickUpResourceCall pk =>
    intro p hp
    rw [runCall, pick_up_resource_liquid] at hp
    exact h0 p hp
  | moveResourceCall m =>
    intro p hp
    rw [runCall, move_picked_up_resource_liquid] at hp
    exact h0 p hp
  | dropResourceCall d =>
    intro p hp
    rw [runCall, drop_resource_liquid] at hp
    exact h0 p hp

theorem runCalls_nonneg (calls : List BackendCall) :
    ∀ s : BackendState, liquidNonneg s →
      (∀ c ∈ calls, dispenseVolsNonneg c) →
      liquidNonneg (runCalls s calls).1 := by
  induction calls with
  | nil => intro s h0 _; simpa [runCalls] using h0
  | cons c rest ih =>
    intro s h0 hcs
    have hc := runCall_nonneg s c h0 (hcs c (List.mem_cons_self _ _))
    cases hr : runCall s c with
    | mk s' e =>
      cases e with
      | none =>
        have : liquidNonneg s' := by rw [hr] at hc; exact hc
        simpa [runCalls, hr] using
          ih s' this (fun c' hc' => hcs c' (List.mem_cons_of_mem _ hc'))
      | some err =>
        have : liquidNonneg s' := by rw [hr] at hc; exact hc
        simpa [runCalls, hr] using this

end TecanFluentSimulatorBackend

namespace TecanSimulator

theorem parseLine_skip (l : String)
    (h : (pySplit l (Char.ofNat 59)).headD ""
        ∉ (["A", "D", "W", "B", "M"] : List String)) :
    parseLine l = some none := by
  simp only [List.mem_cons, List.not_mem_nil, or_false, not_or] at h
  obtain ⟨hA, hD, hW, hB, hM⟩ := h
  unfold parseLine
  by_cases hw : l.toList.all Char.isWhitespace
  · rw [if_pos hw]
  · rw [if_neg hw]
    simp only []
    rw [if_neg hA, if_neg hD, if_neg hW, if_neg hB, if_neg hM]

theorem parseLines_skip (pre post : List String) (l : String)
    (h : parseLine l = some none) :
    parseLines (pre ++ l :: post) = parseLines (pre ++ post) := by
  induction pre with
  | nil =>
    cases hpost : parseLines post <;>
      simp [parseLines, h, hpost]
  | cons p pre ih =>
    simp only [List.cons_append, parseLines, List.append_eq, ih]

theorem execStep_id (s : SimState) (c : WCommand) : execStep s c = s := by
  cases c <;> rfl

theorem foldl_execStep_id (cmds : List WCommand) (s : SimState) :
    cmds.foldl execStep s = s := by
  induction cmds with
  | nil => rfl
  | cons c rest ih => rw [List.foldl_cons, execStep_id]; exact ih

theorem execute_commands_connected (s : SimState) (cmds : List WCommand)
    (h : s.connected = true) : execute_commands s cmds = (s, none) := by
  simp [execute_commands, h, foldl_execStep_id]

end TecanSimulator

open TecanFluentSimulatorBackend

/-- Claim C1 (counterexample): an aspirate batch whose second element has no
tip on its channel is not rejected as a unit — the first element has
already been dispatched to the runtime controller and its ledger mutation
(100 → 70 in `P_P`) is retained when the error is raised. -/
theorem claim_C1_counterexample :
    (aspirate readyState [⟨resP, 30, none⟩, ⟨resP, 30, none⟩] [0, 1]).2
      = some (SimError.noTipOnChannel 1) ∧
    lookupD (aspirate readyState
        [⟨resP, 30, none⟩, ⟨resP, 30, none⟩] [0, 1]).1.liquidStates "P_P" 0 = 70 ∧
    (aspirate readyState [⟨resP, 30, none⟩, ⟨resP, 30, none⟩] [0, 1]).1.dispatched
      = [RuntimeCommand.aspirateCmd 0 30 (0, 0, 0) none] := by
  have hPP : ("P" ++ "_" ++ "P" : String) = "P_P" := rfl
  refine ⟨?_, ?_, ?_⟩ <;>
    norm_num [TecanFluentSimulatorBackend.aspirate, aspirate_loop, execute_command,
      readyState, resP, wellKey, Resource.get_name, lookupD, insertA,
      List.zip, List.zipWith, hPP]

/-- Claim C1 (amended): batch elements are processed strictly one at a
time; the first failing element raises a single error that stops the
batch, leaving the mutations and dispatches of earlier elements in place
(no atomic pre-validation, no rollback), and `pick_up_tips` performs no
per-element validation at all. -/
theorem claim_C1_amended (s : BackendState) (op : SingleChannelAspiration)
    (ch : Nat) (rest : List (SingleChannelAspiration × Nat))
    (hrun : s.runtimeInitialized = true) (hsetup : s.setupFinished = true) :
    (lookupD s.tipStates ch false = false →
      aspirate_loop s ((op, ch) :: rest) = (s, some (SimError.noTipOnChannel ch))) ∧
    (lookupD s.tipStates ch false = true →
      lookupD s.liquidStates (wellKey op.resource) 0 < op.volume →
      aspirate_loop s ((op, ch) :: rest)
        = ({ s with dispatched := s.dispatched ++
              [RuntimeCommand.aspirateCmd ch op.volume op.resource.location
                op.liquid_class] },
           some (SimError.insufficientVolume (wellKey op.resource)))) ∧
    (lookupD s.tipStates ch false = true →
      op.volume ≤ lookupD s.liquidStates (wellKey op.resource) 0 →
      aspirate_loop s ((op, ch) :: rest)
        = aspirate_loop
            { s with
              dispatched := s.dispatched ++
                [RuntimeCommand.aspirateCmd ch op.volume op.resource.location
                  op.liquid_class]
              liquidStates := insertA s.liquidStates (wellKey op.resource)
                (lookupD s.liquidStates (wellKey op.resource) 0 - op.volume) } rest) ∧
    (∀ (ops : List Pickup) (chs : List Nat), (pick_up_tips s ops chs).2 = none) := by
  refine ⟨fun htip => ?_, fun htip hvol => ?_, fun htip hvol => ?_, fun ops chs => ?_⟩
  · simp [aspirate_loop, htip]
  · simp [aspirate_loop, htip, execute_command, hrun, hvol]
  · simp [aspirate_loop, htip, execute_command, hrun, not_lt.mpr hvol]
  · simp only [pick_up_tips, hsetup, if_pos rfl]
    exact pick_up_tips_loop_ok _ s hrun

/-- Witness for claim C1: the amended step law applied at the concrete
two-element batch of the counterexample. -/
theorem claim_C1_witness :
    aspirate_loop readyState [(⟨resP, 30, none⟩, 0), (⟨resP, 30, none⟩, 1)]
      = aspirate_loop
          { readyState with
            dispatched := readyState.dispatched ++
              [RuntimeCommand.aspirateCmd 0 (30 : ℚ) resP.location none]
            liquidStates := insertA readyState.liquidStates (wellKey resP)
              (lookupD readyState.liquidStates (wellKey resP) 0 - 30) }
          [(⟨resP, 30, none⟩, 1)] :=
  (claim_C1_amended readyState ⟨resP, 30, none⟩ 0 [(⟨resP, 30, none⟩, 1)]
      rfl rfl).2.2.1 (by decide) (by decide)

/-- Claim C2 (counterexample): an aspirate that fails the
insufficient-volume precondition HAS been dispatched to the runtime
controller when the error is raised. -/
theorem claim_C2_counterexample :
    (aspirate readyState [⟨resP, 200, none⟩] [0]).2
      = some (SimError.insufficientVolume "P_P") ∧
    (aspirate readyState [⟨resP, 200, none⟩] [0]).1.dispatched
      = [RuntimeCommand.aspirateCmd 0 200 (0, 0, 0) none] := by
  decide

/-- Claim C2 (amended): failures of class NoTipOnChannel,
ResourceAlreadyHeld and NoResourceHeld leave the state (dispatch log
included) untouched, but an InsufficientVolume aspirate is dispatched to
the runtime controller before the error is raised — only its ledger
mutation is withheld. -/
theorem claim_C2_amended (s : BackendState)
    (hsetup : s.setupFinished = true) (hrun : s.runtimeInitialized = true) :
    (∀ (op : SingleChannelAspiration) (ch : Nat)
        (rest : List (SingleChannelAspiration × Nat)),
      lookupD s.tipStates ch false = false →
      aspirate_loop s ((op, ch) :: rest) = (s, some (SimError.noTipOnChannel ch))) ∧
    (∀ (op : SingleChannelDispense) (ch : Nat)
        (rest : List (SingleChannelDispense × Nat)),
      lookupD s.tipStates ch false = false →
      dispense_loop s ((op, ch) :: rest) = (s, some (SimError.noTipOnChannel ch))) ∧
    (∀ (p : ResourcePickup) (r : Resource), s.pickedUpResource = some r →
      pick_up_resource s p = (s, some SimError.alreadyHoldingResource)) ∧
    (∀ m : ResourceMove, s.pickedUpResource = none →
      move_picked_up_resource s m = (s, some SimError.noResourcePickedUp)) ∧
    (∀ d : ResourceDrop, s.pickedUpResource = none →
      drop_resource s d = (s, some SimError.noResourcePickedUp)) ∧
    (∀ (op : SingleChannelAspiration) (ch : Nat)
        (rest : List (SingleChannelAspiration × Nat)),
      lookupD s.tipStates ch false = true →
      lookupD s.liquidStates (wellKey op.resource) 0 < op.volume →
      aspirate_loop s ((op, ch) :: rest)
        = ({ s with dispatched := s.dispatched ++
              [RuntimeCommand.aspirateCmd ch op.volume op.resource.location
                op.liquid_class] },
           some (SimError.insufficientVolume (wellKey op.resource)))) := by
  refine ⟨fun op ch rest htip => ?_, fun op ch rest htip => ?_,
    fun p r hr => ?_, fun m hm => ?_, fun d hd => ?_, fun op ch rest htip hvol => ?_⟩
  · simp [aspirate_loop, htip]
  · simp [dispense_loop, htip]
  · simp [pick_up_resource, hsetup, hr]
  · simp [move_picked_up_resource, hsetup, hm]
  · simp [drop_resource, hsetup, hd]
  · simp [aspirate_loop, htip, execute_command, hrun, hvol]

/-- Witness for claim C2: the amended law at the counterexample input —
the insufficient-volume aspirate is dispatched, then rejected. -/
theorem claim_C2_witness :
    aspirate_loop readyState [(⟨resP, 200, none⟩, 0)]
      = ({ readyState with dispatched := readyState.dispatched ++
            [RuntimeCommand.aspirateCmd 0 (200 : ℚ) resP.location none] },
         some (SimError.insufficientVolume (wellKey resP))) :=
  (claim_C2_amended readyState rfl rfl).2.2.2.2.2 ⟨resP, 200, none⟩ 0 []
    (by decide) (by decide)

/-- Claim C3 (counterexample): two consecutive tip pickups on channel 0
both succeed — the second is not rejected, because `pick_up_tips` never
checks tip presence. -/
theorem claim_C3_counterexample :
    (pick_up_tips freshState [⟨resP⟩] [0]).2 = none ∧
    (pick_up_tips (pick_up_tips freshState [⟨resP⟩] [0]).1 [⟨resP⟩] [0]).2 = none ∧
    lookupD (pick_up_tips (pick_up_tips freshState [⟨resP⟩] [0]).1
        [⟨resP⟩] [0]).1.tipStates 0 false = true := by
  decide

/-- Claim C3 (amended): `pick_up_tips` and `drop_tips` check no tip
precondition and never fail on a set-up backend; each applied PickupTip
unconditionally assigns `tip_present(channel) := true` and each DropTip
assigns `false` (an assignment, not a guarded flip), so repeated pickups
on one channel all succeed. -/
theorem claim_C3_amended (s : BackendState) (ops : List Pickup) (dops : List Drop)
    (chs dchs : List Nat) (hsetup : s.setupFinished = true)
    (hrun : s.runtimeInitialized = true) :
    ((pick_up_tips s ops chs).2 = none ∧
      ∀ ch ∈ (ops.zip chs).map Prod.snd,
        lookupD (pick_up_tips s ops chs).1.tipStates ch false = true) ∧
    ((drop_tips s dops dchs).2 = none ∧
      ∀ ch ∈ (dops.zip dchs).map Prod.snd,
        lookupD (drop_tips s dops dchs).1.tipStates ch false = false) := by
  refine ⟨⟨?_, fun ch hch => ?_⟩, ?_, fun ch hch => ?_⟩
  · simp only [pick_up_tips, hsetup, if_pos rfl]
    exact pick_up_tips_loop_ok _ s hrun
  · simp only [pick_up_tips, hsetup, if_pos rfl]
    exact pick_up_tips_loop_lookup_of_mem _ ch s hrun hch
  · simp only [drop_tips, hsetup, if_pos rfl]
    exact drop_tips_loop_ok _ s hrun
  · simp only [drop_tips, hsetup, if_pos rfl]
    exact drop_tips_loop_lookup_of_mem _ ch s hrun hch

/-- Witness for claim C3: concrete single-channel pickup on a fresh
backend succeeds and sets the flag. -/
theorem claim_C3_witness :
    (pick_up_tips freshState [⟨resP⟩] [0]).2 = none ∧
    lookupD (pick_up_tips freshState [⟨resP⟩] [0]).1.tipStates 0 false = true :=
  ⟨(claim_C3_amended freshState [⟨resP⟩] [] [0] [] rfl rfl).1.1,
   (claim_C3_amended freshState [⟨resP⟩] [] [0] [] rfl rfl).1.2 0 (by decide)⟩

/-- Claim C4 (counterexample): the interface accepts a negative dispense
volume, and applying it drives the recorded volume of `P_P` below zero. -/
theorem claim_C4_counterexample :
    (dispense noLiquidState [⟨resP, -5, none⟩] [0]).2 = none ∧
    lookupD (dispense noLiquidState
        [⟨resP, -5, none⟩] [0]).1.liquidStates "P_P" 0 < 0 := by
  have hPP : ("P" ++ "_" ++ "P" : String) = "P_P" := rfl
  refine ⟨?_, ?_⟩ <;>
    norm_num [TecanFluentSimulatorBackend.dispense, dispense_loop, execute_command,
      noLiquidState, resP, wellKey, Resource.get_name, lookupD, insertA,
      List.zip, List.zipWith, hPP]

/-- Claim C4 (amended): starting from a ledger whose recorded volumes are
all nonnegative, every recorded volume stays nonnegative after every
applied call, provided each dispense call carries only nonnegative
volumes (aspirate needs no restriction: its guard forces
`current ≥ volume` before subtracting). -/
theorem claim_C4_amended (s : BackendState) (calls : List BackendCall)
    (h0 : liquidNonneg s) (h1 : ∀ c ∈ calls, dispenseVolsNonneg c) :
    liquidNonneg (runCalls s calls).1 :=
  runCalls_nonneg calls s h0 h1

/-- Witness for claim C4: a concrete dispense-then-aspirate run keeps the
ledger nonnegative. -/
theorem claim_C4_witness :
    liquidNonneg (runCalls noLiquidState
      [BackendCall.dispenseCall [⟨resP, 5, none⟩] [0],
       BackendCall.aspirateCall [⟨resP, 3, none⟩] [0]]).1 :=
  claim_C4_amended noLiquidState
    [BackendCall.dispenseCall [⟨resP, 5, none⟩] [0],
     BackendCall.aspirateCall [⟨resP, 3, none⟩] [0]]
    (by intro p hp; exact absurd hp (List.not_mem_nil p))
    (by
      intro c hc
      rcases List.mem_cons.mp hc with rfl | hc
      · intro op hop
        rcases List.mem_singleton.mp hop with rfl
        norm_num
      · rcases List.mem_singleton.mp hc with rfl
        trivial)

/-- Claim C5 (confirmed): an aspirate on a channel with a tip is rejected
with the insufficient-volume error and leaves the ledger exactly
unchanged when the well's volume is below the request; when it suffices,
exactly the requested volume is subtracted from the well. -/
theorem claim_C5 (s : BackendState) (op : SingleChannelAspiration) (ch : Nat)
    (hsetup : s.setupFinished = true) (hrun : s.runtimeInitialized = true)
    (htip : lookupD s.tipStates ch false = true) :
    (lookupD s.liquidStates (wellKey op.resource) 0 < op.volume →
      (aspirate s [op] [ch]).2 = some (SimError.insufficientVolume (wellKey op.resource)) ∧
      (aspirate s [op] [ch]).1.liquidStates = s.liquidStates) ∧
    (op.volume ≤ lookupD s.liquidStates (wellKey op.resource) 0 →
      (aspirate s [op] [ch]).2 = none ∧
      lookupD (aspirate s [op] [ch]).1.liquidStates (wellKey op.resource) 0
        = lookupD s.liquidStates (wellKey op.resource) 0 - op.volume) := by
  constructor
  · intro hvol
    constructor <;>
      simp [TecanFluentSimulatorBackend.aspirate, hsetup, aspirate_loop, htip,
        execute_command, hrun, hvol, List.zip]
  · intro hvol
    have hnl := not_lt.mpr hvol
    constructor <;>
      simp [TecanFluentSimulatorBackend.aspirate, hsetup, aspirate_loop, htip,
        execute_command, hrun, hnl, List.zip, lookupD_insertA_self]

/-- Witness for claim C5: both branches at concrete states — a 200 µL
request against 100 µL is rejected leaving 100; a 40 µL request leaves 60. -/
theorem claim_C5_witness :
    ((aspirate readyState [⟨resP, 200, none⟩] [0]).2
        = some (SimError.insufficientVolume (wellKey resP)) ∧
      (aspirate readyState [⟨resP, 200, none⟩] [0]).1.liquidStates
        = readyState.liquidStates) ∧
    ((aspirate readyState [⟨resP, 40, none⟩] [0]).2 = none ∧
      lookupD (aspirate readyState [⟨resP, 40, none⟩] [0]).1.liquidStates (wellKey resP) 0
        = lookupD readyState.liquidStates (wellKey resP) 0 - 40) :=
  ⟨(claim_C5 readyState ⟨resP, 200, none⟩ 0 rfl rfl (by decide)).1 (by decide),
   (claim_C5 readyState ⟨resP, 40, none⟩ 0 rfl rfl (by decide)).2 (by decide)⟩

/-- Claim C6 (counterexample): with `P` held, moving or dropping the
different resource `Q` succeeds — the held resource is never compared
with the one named in the command. -/
theorem claim_C6_counterexample :
    heldState.pickedUpResource = some resP ∧ resP ≠ resQ ∧
    (move_picked_up_resource heldState ⟨resQ, (9, 9, 9)⟩).2 = none ∧
    (drop_resource heldState ⟨resQ⟩).2 = none := by
  decide

/-- Claim C6 (amended): PickupResource requires that nothing is held (a
second pickup is rejected with the already-holding error, leaving the
original resource held); MoveResource/DropResource are rejected exactly
when nothing is held — whenever any resource is held they succeed, with
no comparison between the held resource and the command's resource. -/
theorem claim_C6_amended (s : BackendState)
    (hsetup : s.setupFinished = true) (hrun : s.runtimeInitialized = true) :
    (∀ (p : ResourcePickup) (r : Resource), s.pickedUpResource = some r →
      pick_up_resource s p = (s, some SimError.alreadyHoldingResource)) ∧
    (∀ p : ResourcePickup, s.pickedUpResource = none →
      (pick_up_resource s p).2 = none ∧
      (pick_up_resource s p).1.pickedUpResource = some p.resource) ∧
    (∀ m : ResourceMove, s.pickedUpResource = none →
      move_picked_up_resource s m = (s, some SimError.noResourcePickedUp)) ∧
    (∀ (m : ResourceMove) (r : Resource), s.pickedUpResource = some r →
      (move_picked_up_resource s m).2 = none ∧
      (move_picked_up_resource s m).1.pickedUpResource = some r) ∧
    (∀ d : ResourceDrop, s.pickedUpResource = none →
      drop_resource s d = (s, some SimError.noResourcePickedUp)) ∧
    (∀ (d : ResourceDrop) (r : Resource), s.pickedUpResource = some r →
      (drop_resource s d).2 = none ∧
      (drop_resource s d).1.pickedUpResource = none) := by
  refine ⟨fun p r hr => ?_, fun p hn => ?_, fun m hn => ?_, fun m r hr => ?_,
    fun d hn => ?_, fun d r hr => ?_⟩
  · simp [pick_up_resource, hsetup, hr]
  · constructor <;> simp [pick_up_resource, hsetup, hn, execute_command, hrun]
  · simp [move_picked_up_resource, hsetup, hn]
  · constructor <;>
      simp [move_picked_up_resource, hsetup, hr, execute_command, hrun]
  · simp [drop_resource, hsetup, hn]
  · constructor <;> simp [drop_resource, hsetup, hr, execute_command, hrun]

/-- Witness for claim C6: with `P` held, a second pickup is rejected and
`P` stays held, while moving the unrelated `Q` succeeds. -/
theorem claim_C6_witness :
    pick_up_resource heldState ⟨resP⟩
      = (heldState, some SimError.alreadyHoldingResource) ∧
    (move_picked_up_resource heldState ⟨resQ, (9, 9, 9)⟩).2 = none :=
  ⟨(claim_C6_amended heldState rfl rfl).1 ⟨resP⟩ resP rfl,
   ((claim_C6_amended heldState rfl rfl).2.2.2.1 ⟨resQ, (9, 9, 9)⟩ resP rfl).1⟩

/-- Claim C7 (counterexample): the worklist `X;foo;bar` parses without any
error to the empty command list — the unrecognized code is silently
skipped, not reported. -/
theorem claim_C7_counterexample :
    TecanSimulator.load_worklist "X;foo;bar" = some ([] : List WCommand) := by
  decide

/-- Claim C7 (amended): a line whose leading field is none of the
recognized command codes A, D, W, B, M is silently skipped: parsing a
line list containing it equals parsing the same list with that line
removed, and no error is raised for it. -/
theorem claim_C7_amended (pre post : List String) (l : String)
    (h : (pySplit l (Char.ofNat 59)).headD ""
        ∉ (["A", "D", "W", "B", "M"] : List String)) :
    TecanSimulator.parseLines (pre ++ l :: post)
      = TecanSimulator.parseLines (pre ++ post) :=
  TecanSimulator.parseLines_skip pre post l (TecanSimulator.parseLine_skip l h)

/-- Witness for claim C7: dropping the `X;foo;bar` line between two
recognized lines leaves the parse unchanged. -/
theorem claim_C7_witness :
    TecanSimulator.parseLines
        (["A;Source_96;A1;;50"] ++ "X;foo;bar" :: ["D;Dest_96;A1;;50"])
      = TecanSimulator.parseLines (["A;Source_96;A1;;50"] ++ ["D;Dest_96;A1;;50"]) :=
  claim_C7_amended ["A;Source_96;A1;;50"] ["D;Dest_96;A1;;50"] "X;foo;bar" (by decide)

/-- Claim C8 (confirmed): aspirating `v` from a resource's well and then
dispensing `v` back to the same resource, with a tip on the channel
throughout and enough initial volume, restores the recorded volume
exactly. -/
theorem claim_C8 (s : BackendState) (r : Resource) (v : ℚ) (lc : Option String)
    (ch : Nat) (hsetup : s.setupFinished = true) (hrun : s.runtimeInitialized = true)
    (htip : lookupD s.tipStates ch false = true)
    (hvol : v ≤ lookupD s.liquidStates (wellKey r) 0) :
    (aspirate s [⟨r, v, lc⟩] [ch]).2 = none ∧
    (dispense (aspirate s [⟨r, v, lc⟩] [ch]).1 [⟨r, v, lc⟩] [ch]).2 = none ∧
    lookupD (dispense (aspirate s [⟨r, v, lc⟩] [ch]).1
        [⟨r, v, lc⟩] [ch]).1.liquidStates (wellKey r) 0
      = lookupD s.liquidStates (wellKey r) 0 := by
  have hnl := not_lt.mpr hvol
  refine ⟨?_, ?_, ?_⟩ <;>
    simp [TecanFluentSimulatorBackend.aspirate, TecanFluentSimulatorBackend.dispense,
      hsetup, aspirate_loop, dispense_loop, htip, execute_command, hrun, hnl,
      List.zip, lookupD_insertA_self, sub_add_cancel]

/-- Witness for claim C8: 40 µL out of and back into `P_P` starting from
100 µL leaves 100 µL recorded. -/
theorem claim_C8_witness :
    (aspirate readyState [⟨resP, 40, none⟩] [0]).2 = none ∧
    (dispense (aspirate readyState [⟨resP, 40, none⟩] [0]).1
        [⟨resP, 40, none⟩] [0]).2 = none ∧
    lookupD (dispense (aspirate readyState [⟨resP, 40, none⟩] [0]).1
        [⟨resP, 40, none⟩] [0]).1.liquidStates (wellKey resP) 0
      = lookupD readyState.liquidStates (wellKey resP) 0 :=
  claim_C8 readyState resP 40 none 0 rfl rfl (by decide) (by decide)

/-- Claim C9 (counterexample): the two-line transfer worklist parses to
the expected two commands, but executing them on a connected simulator
with `Source_96.A1` seeded to 100 leaves the state exactly unchanged —
`Source_96.A1` stays at 100 and nothing is ever recorded for
`Dest_96.A1`, instead of the claimed 50/50 split. -/
theorem claim_C9_counterexample :
    TecanSimulator.load_worklist "A;Source_96;A1;;50\nD;Dest_96;A1;;50"
      = some [WCommand.aspirateW "Source_96" "A1" 50,
          WCommand.dispenseW "Dest_96" "A1" 50] ∧
    TecanSimulator.execute_commands simScenario
        [WCommand.aspirateW "Source_96" "A1" 50, WCommand.dispenseW "Dest_96" "A1" 50]
      = (simScenario, none) ∧
    lookupD simScenario.liquidStates "Source_96.A1" 0 = 100 ∧
    lookupD simScenario.liquidStates "Dest_96.A1" 0 = 0 := by
  decide

/-- Claim C9 (amended): parsing the two-line worklist yields exactly the
aspirate and dispense commands with volume 50, and executing any command
list on a connected `TecanSimulator` raises nothing and returns the state
unchanged — no volume is transferred and no log is kept. -/
theorem claim_C9_amended :
    TecanSimulator.load_worklist "A;Source_96;A1;;50\nD;Dest_96;A1;;50"
      = some [WCommand.aspirateW "Source_96" "A1" 50,
          WCommand.dispenseW "Dest_96" "A1" 50] ∧
    ∀ (s : SimState) (cmds : List WCommand), s.connected = true →
      TecanSimulator.execute_commands s cmds = (s, none) :=
  ⟨by decide, fun s cmds h => TecanSimulator.execute_commands_connected s cmds h⟩

/-- Witness for claim C9: the execution law at the seeded scenario state. -/
theorem claim_C9_witness :
    TecanSimulator.execute_commands simScenario
        [WCommand.aspirateW "Source_96" "A1" 50, WCommand.dispenseW "Dest_96" "A1" 50]
      = (simScenario, none) :=
  claim_C9_amended.2 simScenario
    [WCommand.aspirateW "Source_96" "A1" 50, WCommand.dispenseW "Dest_96" "A1" 50] rfl

/-- Claim C10 (confirmed): the ledger key is computed solely from the
operation's resource as name, underscore, name again; resources with
equal names share one ledger entry regardless of any other attribute, and
a dispense reads and writes exactly the entry at that key. -/
theorem claim_C10 :
    (∀ r : Resource, wellKey r = r.name ++ "_" ++ r.name) ∧
    (∀ r₁ r₂ : Resource, r₁.name = r₂.name → wellKey r₁ = wellKey r₂) ∧
    (∀ (s : BackendState) (op : SingleChannelDispense) (ch : Nat)
        (rest : List (SingleChannelDispense × Nat)),
      s.runtimeInitialized = true →
      lookupD s.tipStates ch false = true →
      dispense_loop s ((op, ch) :: rest)
        = dispense_loop
            { s with
              dispatched := s.dispatched ++
                [RuntimeCommand.dispenseCmd ch op.volume op.resource.location
                  op.liquid_class]
              liquidStates := insertA s.liquidStates (wellKey op.resource)
                (lookupD s.liquidStates (wellKey op.resource) 0 + op.volume) } rest) := by
  refine ⟨fun r => rfl, fun r₁ r₂ h => by simp [wellKey, Resource.get_name, h], ?_⟩
  intro s op ch rest hrun htip
  simp [dispense_loop, htip, execute_command, hrun]

/-- Witness for claim C10: two resources both named `P` at different
locations share the ledger key. -/
theorem claim_C10_witness : wellKey resP = wellKey resP' :=
  claim_C10.2.1 resP resP' rfl
